import Mathlib

/-!
Shallow embedding of the A2A/MCP sample agents (samples/python/agents/google_adk
and google_adk2).  The two agents share the same invocation-bridge code
(GeneralAgent / SonarqubeAgent: invoke, stream, session resolution); the
google_adk2 main module adds the MCP tool-provider lifecycle loader
(get_tools_async).  Engine behaviour (Runner.run / run_async) is an oracle:
the event list it produces is a parameter.
-/

namespace A2AMCP

/-! ## Data model: engine output events (google.genai types as used here).

Python truthiness is modelled explicitly: an optional string field is falsy
when it is None or the empty string; a parts list is falsy when absent or
empty (both modelled as the empty list, since the code only tests truthiness
and iterates under it). -/

/-- Opaque stand-in for a function_response object; its model_dump is the
payload string. -/
structure FunctionResponse where
  payload : String
  deriving Repr, DecidableEq

structure Part where
  text : Option String
  function_response : Option FunctionResponse
  deriving Repr, DecidableEq

structure Content where
  parts : List Part
  deriving Repr, DecidableEq

structure Event where
  content : Option Content
  isFinalResponse : Bool
  deriving Repr, DecidableEq

/-- Python truthiness of p.text: the text when it is present and non-empty. -/
def truthyText (p : Part) : Option String :=
  match p.text with
  | some t => if t = "" then none else some t
  | none => none

/-- The join used by both invoke and stream:
"\n".join([p.text for p in parts if p.text]). -/
def joinTexts (ps : List Part) : String :=
  String.intercalate "\n" (ps.filterMap truthyText)

/-- The parts of an event, empty when the event has no content. -/
def partsOf (e : Event) : List Part :=
  match e.content with
  | none => []
  | some c => c.parts

/-- Statement vocabulary: the non-empty textual fragments of a parts list,
in order. -/
def nonemptyTexts (ps : List Part) : List String :=
  (ps.filterMap Part.text).filter (fun t => !(t = ""))

/-! ## Blocking extraction (GeneralAgent.invoke, lines 49-51):
if not events or not events[-1].content or not events[-1].content.parts:
  return ""
return "\n".join([p.text for p in events[-1].content.parts if p.text]) -/

def invokeExtract (events : List Event) : String :=
  match events.getLast? with
  | none => ""
  | some e =>
    match e.content with
    | none => ""
    | some c =>
      match c.parts with
      | [] => ""
      | p :: ps => joinTexts (p :: ps)

/-! ## Streaming extraction (GeneralAgent.stream, lines 70-91). -/

/-- A Completed payload: either the joined text, or a function_response
model_dump. -/
inductive Payload
  | text (s : String)
  | structured (fr : FunctionResponse)
  deriving Repr, DecidableEq

inductive TurnResult
  | completed (content : Payload)
  | progress (updates : String)
  deriving Repr, DecidableEq

def isCompleted : TurnResult → Bool
  | .completed _ => true
  | .progress _ => false

/-- The fixed progress status string of the google_adk agent. -/
def processingMsg : String := "Processing the request..."

/-- Payload computed for a final-response event.  Mirrors the source:
the text branch fires only when the FIRST part has truthy text; otherwise,
when any part has a function_response, the code evaluates
next((p.function_response.model_dump() for p in parts)), i.e. the FIRST
part's function_response - raising AttributeError (modelled as none) when
the first part has no function_response. -/
def finalPayload (e : Event) : Option Payload :=
  match e.content with
  | none => some (Payload.text "")
  | some c =>
    match c.parts with
    | [] => some (Payload.text "")
    | p0 :: rest =>
      if (truthyText p0).isSome then
        some (Payload.text (joinTexts (p0 :: rest)))
      else if (p0 :: rest).any (fun p => p.function_response.isSome) then
        match p0.function_response with
        | some fr => some (Payload.structured fr)
        | none => none
      else
        some (Payload.text "")

/-- One loop iteration of stream: a Completed result for a final-response
event, a Progress result otherwise. -/
def streamStep (e : Event) : Option TurnResult :=
  if e.isFinalResponse then (finalPayload e).map TurnResult.completed
  else some (TurnResult.progress processingMsg)

/-- The whole yielded sequence of stream over the engine's events; none when
an iteration raises. -/
def stream : List Event → Option (List TurnResult)
  | [] => some []
  | e :: rest =>
    match streamStep e with
    | none => none
    | some r => (stream rest).map (fun rs => r :: rs)

/-- The payloads of the Completed results in a yielded sequence. -/
def completedPayloads (rs : List TurnResult) : List Payload :=
  rs.filterMap (fun r => match r with
    | .completed p => some p
    | .progress _ => none)

/-! ## Session store (InMemorySessionService as used by invoke/stream,
lines 33-48: get_session, then create_session with state={} when absent). -/

structure Session where
  id : String
  state : List (String × String)
  deriving Repr, DecidableEq

abbrev SessionStore := List (String × Session)

def get_session (store : SessionStore) (sid : String) : Option Session :=
  store.lookup sid

def create_session (store : SessionStore) (sid : String) :
    Session × SessionStore :=
  let s : Session := { id := sid, state := [] }
  (s, (sid, s) :: store)

/-- The get-then-create sequence both entry points run before submitting the
query. -/
def resolveSession (store : SessionStore) (sid : String) :
    Session × SessionStore :=
  match get_session store sid with
  | some s => (s, store)
  | none => create_session store sid

/-! ## Module state and full entry points (agent.py).  The module-level
request_ids set (line 13) is part of the state; the engine is an oracle
mapping the resolved session id and new message to its event list. -/

def userContent (query : String) : Content :=
  { parts := [{ text := some query, function_response := none }] }

structure AgentState where
  sessions : SessionStore
  request_ids : List String
  deriving Repr, DecidableEq

def initialAgentState : AgentState := { sessions := [], request_ids := [] }

abbrev Engine := String → Content → List Event

def invoke (engine : Engine) (st : AgentState) (query sid : String) :
    String × AgentState :=
  let (session, sessions') := resolveSession st.sessions sid
  let events := engine session.id (userContent query)
  (invokeExtract events, { st with sessions := sessions' })

def streamRun (engine : Engine) (st : AgentState) (query sid : String) :
    Option (List TurnResult) × AgentState :=
  let (session, sessions') := resolveSession st.sessions sid
  let events := engine session.id (userContent query)
  (stream events, { st with sessions := sessions' })

inductive AgentOp
  | invokeOp (query sid : String)
  | streamOp (query sid : String)

def applyOp (engine : Engine) (st : AgentState) : AgentOp → AgentState
  | .invokeOp q sid => (invoke engine st q sid).2
  | .streamOp q sid => (streamRun engine st q sid).2

def runOps (engine : Engine) (ops : List AgentOp) : AgentState :=
  ops.foldl (applyOp engine) initialAgentState

/-! ## Tool-provider lifecycle loader (google_adk2/__main__.py,
get_tools_async lines 26-58).  For each configured server the code calls
MCPToolset.from_server with no error handling, extends the tool list, and
enters the connection's exit stack into a local AsyncExitStack.  The
external from_server call is an oracle: each descriptor carries the outcome the call
would produce.  On success the function returns (tools, stack); the stack,
released via AsyncExitStack semantics, closes its contexts in reverse entry
order.  On a failing descriptor the exception propagates: the local stack -
holding the connections entered so far - is dropped without being closed,
so those connections are recorded as leaked. -/

structure ToolHandle where
  name : String
  deriving Repr, DecidableEq

structure Conn where
  cid : Nat
  deriving Repr, DecidableEq

inductive ConnOutcome
  | ok (tools : List ToolHandle) (conn : Conn)
  | connectFail (err : String)
  deriving Repr, DecidableEq

structure Descriptor where
  name : String
  command : String
  args : List String
  env : List (String × String)
  outcome : ConnOutcome
  deriving Repr, DecidableEq

/-- The success payload of the loader: the merged registry plus the stack of
entered connections in acquisition order. -/
abbrev LoaderOk := List ToolHandle × List Conn

/-- The failure payload: the propagated error message plus the connections
that were successfully entered before the failure and are now leaked. -/
abbrev LoaderErr := String × List Conn

def get_tools_loop : List Descriptor → List ToolHandle → List Conn →
    Except LoaderErr LoaderOk
  | [], tools, stack => .ok (tools, stack)
  | d :: rest, tools, stack =>
    match d.outcome with
    | .ok ts conn => get_tools_loop rest (tools ++ ts) (stack ++ [conn])
    | .connectFail err => .error (err, stack)

def get_tools_async (ds : List Descriptor) : Except LoaderErr LoaderOk :=
  get_tools_loop ds [] []

/-- Releasing an AsyncExitStack closes the entered contexts in reverse entry
order; the result is the close order. -/
def releaseStack (stack : List Conn) : List Conn := stack.reverse

def descOk (d : Descriptor) : Bool :=
  match d.outcome with
  | .ok _ _ => true
  | .connectFail _ => false

/-- The tool handles the descriptors' successful connections expose, in
order. -/
def toolsOf : List Descriptor → List ToolHandle
  | [] => []
  | d :: rest =>
    (match d.outcome with
     | .ok ts _ => ts
     | .connectFail _ => []) ++ toolsOf rest

/-- The connections the descriptors' successful attempts open, in order. -/
def connsOf : List Descriptor → List Conn
  | [] => []
  | d :: rest =>
    (match d.outcome with
     | .ok _ conn => [conn]
     | .connectFail _ => []) ++ connsOf rest

/-! ## Startup configuration check (both __main__ modules, e.g. google_adk
lines 19-54): a falsy os.getenv("GOOGLE_API_KEY") raises MissingAPIKeyError,
which the handler logs and turns into exit(1); only a truthy key reaches
server.start(). -/

inductive StartupResult
  | serverStarted
  | exited (code : Nat)
  deriving Repr, DecidableEq

/-- Python truthiness of os.getenv: unset (None) and the empty string are
falsy. -/
def envTruthy : Option String → Bool
  | none => false
  | some s => !(s = "")

def missingKeyLog : String :=
  "Error: GOOGLE_API_KEY environment variable not set."

/-- The startup path of main as a function of the GOOGLE_API_KEY variable:
the result together with the logged error lines. -/
def mainStartup (googleApiKey : Option String) :
    StartupResult × List String :=
  if envTruthy googleApiKey then (StartupResult.serverStarted, [])
  else (StartupResult.exited 1, [missingKeyLog])

/-! ## Helper lemmas -/

theorem filterMap_truthyText_eq (ps : List Part) :
    ps.filterMap truthyText = nonemptyTexts ps := by
  induction ps with
  | nil => rfl
  | cons p ps ih =>
    simp only [nonemptyTexts] at ih ⊢
    cases h : p.text with
    | none => simpa [List.filterMap_cons, truthyText, h] using ih
    | some t =>
      by_cases ht : t = "" <;>
        simpa [List.filterMap_cons, truthyText, h, ht] using ih

theorem joinTexts_eq (ps : List Part) :
    joinTexts ps = String.intercalate "\n" (nonemptyTexts ps) := by
  rw [joinTexts, filterMap_truthyText_eq]

theorem stream_progress_front (es rest : List Event)
    (h : ∀ x ∈ es, x.isFinalResponse = false) :
    stream (es ++ rest) =
      (stream rest).map
        (fun rs => es.map (fun _ => TurnResult.progress processingMsg) ++ rs) := by
  induction es with
  | nil =>
    rw [List.nil_append]
    cases stream rest <;> simp
  | cons e es ih =>
    have he : e.isFinalResponse = false := h e (by simp)
    have hrest : ∀ x ∈ es, x.isFinalResponse = false := fun x hx => h x (by simp [hx])
    have hstep : streamStep e = some (TurnResult.progress processingMsg) := by
      simp [streamStep, he]
    simp only [List.cons_append, stream, hstep, List.append_eq]
    rw [ih hrest]
    cases stream rest <;> simp

theorem get_tools_loop_ok_front (pre : List Descriptor)
    (h : ∀ d ∈ pre, descOk d = true) :
    ∀ (rest : List Descriptor) (tools : List ToolHandle) (stack : List Conn),
    get_tools_loop (pre ++ rest) tools stack =
      get_tools_loop rest (tools ++ toolsOf pre) (stack ++ connsOf pre) := by
  induction pre with
  | nil => intro rest tools stack; simp [toolsOf, connsOf]
  | cons d pre ih =>
    intro rest tools stack
    have hd : descOk d = true := h d (by simp)
    have hpre : ∀ x ∈ pre, descOk x = true := fun x hx => h x (by simp [hx])
    cases hout : d.outcome with
    | ok ts conn =>
      simp only [List.cons_append, get_tools_loop, hout, List.append_eq]
      rw [ih hpre]
      simp [toolsOf, connsOf, hout]
    | connectFail err => simp [descOk, hout] at hd

theorem lookup_none_not_mem_keys :
    ∀ (store : SessionStore) (k : String),
    List.lookup k store = none → ¬ k ∈ store.map Prod.fst := by
  intro store
  induction store with
  | nil => intro k _; simp
  | cons p store ih =>
    intro k h
    by_cases he : k = p.1
    · subst he; simp [List.lookup] at h
    · have hbeq : (k == p.1) = false := beq_eq_false_iff_ne.mpr he
      simp only [List.lookup, hbeq] at h
      simp [he, ih k h]

/-! ## Claim theorems -/

/-- C6: the blocking entry point returns the newline-joined concatenation,
empty strings excluded, of the textual fragments of the engine's final
output event; with no output events, or a final event without content or
without textual parts, it returns the empty string rather than an error. -/
theorem c6_invoke_joins_final_texts (events : List Event) :
    (events = [] → invokeExtract events = "") ∧
    (∀ e, events.getLast? = some e →
      invokeExtract events =
        String.intercalate "\n" (nonemptyTexts (partsOf e))) := by
  constructor
  · intro h; subst h; rfl
  · intro e he
    simp only [invokeExtract, he]
    cases hc : e.content with
    | none => simp [partsOf, hc, nonemptyTexts]; rfl
    | some c =>
      cases hp : c.parts with
      | nil => simp [partsOf, hc, hp, nonemptyTexts]; rfl
      | cons p ps => simp [partsOf, hc, hp, joinTexts_eq]

def evW6 : Event :=
  { content := some { parts :=
      [{ text := some "a", function_response := none },
       { text := some "", function_response := none },
       { text := some "b", function_response := none }] },
    isFinalResponse := true }

theorem c6_witness : invokeExtract [evW6] = "a\nb" := by
  have h := (c6_invoke_joins_final_texts [evW6]).2 evW6 rfl
  rw [h]; rfl

/-- C8: session resolution is get-or-create: an unknown key yields a Session
with that id and empty initial state (a query is never rejected for an
unknown key), resolving the same key twice returns the same Session and
leaves the store unchanged, and resolution preserves the at-most-one-Session
-per-key invariant. -/
theorem c8_resolve_or_create (store : SessionStore) (k : String) :
    (get_session store k = none →
      (resolveSession store k).1.id = k ∧
      (resolveSession store k).1.state = []) ∧
    (resolveSession (resolveSession store k).2 k = resolveSession store k) ∧
    ((store.map Prod.fst).Nodup →
      (((resolveSession store k).2).map Prod.fst).Nodup) := by
  refine ⟨?_, ?_, ?_⟩
  · intro h; simp [resolveSession, h, create_session]
  · cases h : get_session store k with
    | some s => simp [resolveSession, h]
    | none =>
      simp only [resolveSession, h, create_session]
      have hl : get_session ((k, ⟨k, []⟩) :: store) k =
          some (⟨k, []⟩ : Session) := by
        simp [get_session, List.lookup]
      simp [resolveSession, hl]
  · intro hnd
    cases h : get_session store k with
    | some s => simp [resolveSession, h, hnd]
    | none =>
      have hk := lookup_none_not_mem_keys store k h
      simp [resolveSession, h, create_session, hnd, hk]

theorem c8_witness :
    (resolveSession [] "s1").1.id = "s1" ∧
    (resolveSession [] "s1").1.state = [] ∧
    resolveSession (resolveSession [] "s1").2 "s1" = resolveSession [] "s1" ∧
    (((resolveSession [] "s1").2).map Prod.fst).Nodup := by
  have h := c8_resolve_or_create [] "s1"
  exact ⟨(h.1 rfl).1, (h.1 rfl).2, h.2.1, h.2.2 (by simp)⟩

/-- C9: a missing (or empty, hence falsy) GOOGLE_API_KEY makes startup exit
with the non-zero code 1 and the cause logged, and the server is never
started. -/
theorem c9_missing_key_aborts (key : Option String)
    (h : envTruthy key = false) :
    mainStartup key = (StartupResult.exited 1, [missingKeyLog]) ∧
    (mainStartup key).1 ≠ StartupResult.serverStarted ∧ (1 : Nat) ≠ 0 := by
  refine ⟨by simp [mainStartup, h], by simp [mainStartup, h], by decide⟩

theorem c9_witness :
    mainStartup none = (StartupResult.exited 1, [missingKeyLog]) ∧
    (mainStartup none).1 ≠ StartupResult.serverStarted := by
  have h := c9_missing_key_aborts none rfl
  exact ⟨h.1, h.2.1⟩

/-- C10: the module-level request_ids set is never touched by the public
entry points: every invoke or stream call leaves it unchanged, and from the
initial module state it remains empty for the whole process lifetime. -/
theorem c10_request_ids_untouched :
    (∀ (engine : Engine) (st : AgentState) (op : AgentOp),
      (applyOp engine st op).request_ids = st.request_ids) ∧
    (∀ (engine : Engine) (ops : List AgentOp),
      (runOps engine ops).request_ids = []) := by
  have hstep : ∀ (engine : Engine) (st : AgentState) (op : AgentOp),
      (applyOp engine st op).request_ids = st.request_ids := by
    intro engine st op
    cases op with
    | invokeOp q sid =>
      rcases hres : resolveSession st.sessions sid with ⟨s, st'⟩
      simp [applyOp, invoke, hres]
    | streamOp q sid =>
      rcases hres : resolveSession st.sessions sid with ⟨s, st'⟩
      simp [applyOp, streamRun, hres]
  refine ⟨hstep, ?_⟩
  intro engine ops
  have hfold : ∀ st : AgentState,
      (ops.foldl (applyOp engine) st).request_ids = st.request_ids := by
    induction ops with
    | nil => intro st; rfl
    | cons op ops ih => intro st; rw [List.foldl_cons, ih, hstep]
  simpa [runOps, initialAgentState] using hfold initialAgentState

/-! ## Concrete fixtures for counterexamples and witnesses -/

def pNone : Part := { text := none, function_response := none }

def pHi : Part := { text := some "hi", function_response := none }

def pFR : Part := { text := none, function_response := some ⟨"FR"⟩ }

def evC1cex : Event :=
  { content := some { parts := [pFR, pHi] }, isFinalResponse := true }

def finalEmptyEvent : Event := { content := none, isFinalResponse := true }

def nonFinalEvent : Event := { content := none, isFinalResponse := false }

def finalTextEvent : Event :=
  { content := some
      { parts := [{ text := some "done", function_response := none }] },
    isFinalResponse := true }

/-- C1 counterexample: a final event whose parts hold a function_response
fragment first and a non-empty text fragment second.  The claim expects the
joined text fragments; the code returns the structured fragment because the
text branch only looks at the first part. -/
theorem c1_counterexample :
    stream [evC1cex] =
      some [TurnResult.completed (Payload.structured ⟨"FR"⟩)] ∧
    nonemptyTexts (partsOf evC1cex) = ["hi"] ∧
    (∃ p ∈ partsOf evC1cex, p.function_response.isSome) ∧
    Payload.structured ⟨"FR"⟩ ≠
      Payload.text
        (String.intercalate "\n" (nonemptyTexts (partsOf evC1cex))) := by
  refine ⟨rfl, rfl, ⟨pFR, by simp [evC1cex, partsOf], rfl⟩, by decide⟩

/-- C1 amended: when the final event's parts hold both non-empty text and
function/tool-result fragments AND the first part carries non-empty text,
the Completed payload produced by stream equals the newline-joined text
fragments, not the structured fragment.  (The counterexample forces the
first-part condition: with a structured fragment first, the code returns
that fragment instead.) -/
theorem c1_first_part_text_priority (e : Event) (c : Content)
    (p0 : Part) (rest : List Part)
    (hf : e.isFinalResponse = true) (hc : e.content = some c)
    (hp : c.parts = p0 :: rest)
    (ht : (truthyText p0).isSome)
    (_hfr : ∃ p ∈ c.parts, p.function_response.isSome) :
    stream [e] = some [TurnResult.completed
      (Payload.text (String.intercalate "\n" (nonemptyTexts c.parts)))] := by
  have hpl : finalPayload e =
      some (Payload.text (String.intercalate "\n" (nonemptyTexts c.parts))) := by
    simp [finalPayload, hc, hp, ht, ← joinTexts_eq, hp]
  simp [stream, streamStep, hf, hpl]

def pW1a : Part := { text := some "a", function_response := some ⟨"FR"⟩ }

def evW1 : Event :=
  { content := some { parts := [pW1a, pFR] }, isFinalResponse := true }

theorem c1_witness :
    stream [evW1] = some [TurnResult.completed (Payload.text "a")] := by
  have h := c1_first_part_text_priority evW1 { parts := [pW1a, pFR] }
    pW1a [pFR] rfl rfl rfl (by decide) ⟨pW1a, by simp, rfl⟩
  rw [h]; rfl

/-- C2 counterexample: an engine event sequence with two final-response
events makes stream yield two Completed results, so Completed appears twice
and the first one is not last. -/
theorem c2_counterexample :
    stream [finalEmptyEvent, finalEmptyEvent] =
      some [TurnResult.completed (Payload.text ""),
            TurnResult.completed (Payload.text "")] ∧
    ([TurnResult.completed (Payload.text ""),
      TurnResult.completed (Payload.text "")].countP isCompleted) = 2 := by
  exact ⟨rfl, by decide⟩

/-- C2 amended: when the engine's events are zero or more non-final events
followed by exactly one final-response event whose payload extraction
succeeds, the yielded sequence is the corresponding Progress results - each
carrying only the fixed status string - followed by exactly one Completed
result, which is last; Completed appears exactly once. -/
theorem c2_single_final_completes_last (es : List Event) (e : Event)
    (pl : Payload)
    (hes : ∀ x ∈ es, x.isFinalResponse = false)
    (hf : e.isFinalResponse = true)
    (hpl : finalPayload e = some pl) :
    stream (es ++ [e]) =
      some (es.map (fun _ => TurnResult.progress processingMsg) ++
        [TurnResult.completed pl]) ∧
    (es.map (fun _ => TurnResult.progress processingMsg) ++
      [TurnResult.completed pl]).countP isCompleted = 1 := by
  constructor
  · rw [stream_progress_front es [e] hes]
    have hone : stream [e] = some [TurnResult.completed pl] := by
      simp [stream, streamStep, hf, hpl]
    rw [hone]
    rfl
  · rw [List.countP_append]
    have h1 : (es.map
        (fun _ => TurnResult.progress processingMsg)).countP isCompleted = 0 := by
      induction es with
      | nil => rfl
      | cons x xs ih => simp_all [List.countP_cons, isCompleted]
    simp [h1, List.countP_cons, isCompleted]

theorem c2_witness :
    stream [nonFinalEvent, finalTextEvent] =
      some [TurnResult.progress processingMsg,
            TurnResult.completed (Payload.text "done")] := by
  have h := c2_single_final_completes_last [nonFinalEvent] finalTextEvent
    (Payload.text "done") (by intro x hx; simp at hx; subst hx; rfl) rfl
    (by decide)
  simpa using h.1

def evC7bug : Event :=
  { content := some { parts := [pNone, pFR] }, isFinalResponse := true }

def evOnlyEmptyPart : Event :=
  { content := some { parts := [pNone] }, isFinalResponse := true }

def evC5cex : Event :=
  { content := some { parts := [pNone, pHi] }, isFinalResponse := true }

/-- C7: for a final event with no non-empty text fragments the claim is the
code's evident intent (the guard filters parts by function_response), but
the unfiltered next(...) evaluates the FIRST part's function_response: at a
final event whose first part has neither text nor function_response while a
later part carries one, the code raises AttributeError (modelled none)
instead of returning the first function fragment.  The neither-kind case
does return the empty string. -/
theorem c7_first_function_fragment_bug :
    nonemptyTexts (partsOf evC7bug) = [] ∧
    (∃ p ∈ partsOf evC7bug, p.function_response.isSome) ∧
    finalPayload evC7bug = none ∧
    stream [evC7bug] = none ∧
    finalPayload finalEmptyEvent = some (Payload.text "") ∧
    finalPayload evOnlyEmptyPart = some (Payload.text "") := by
  exact ⟨rfl, ⟨pFR, by simp [evC7bug, partsOf], rfl⟩, rfl, rfl, rfl, rfl⟩

/-- C5 counterexample: on a final event whose first part has no text while a
later part carries non-empty text, the blocking entry point returns the
joined text but the drained streaming entry point's Completed payload is the
empty string, so the two modes do not share the extraction behavior. -/
theorem c5_counterexample :
    invokeExtract [evC5cex] = "hi" ∧
    stream [evC5cex] =
      some [TurnResult.completed (Payload.text "")] ∧
    completedPayloads [TurnResult.completed (Payload.text "")] =
      [Payload.text ""] ∧
    Payload.text "hi" ≠ Payload.text "" := by
  exact ⟨rfl, rfl, rfl, by decide⟩

/-- The final-event shapes on which the blocking and the streaming
extraction agree: no content, no parts, a first part with non-empty text, or
no non-empty text together with no function_response fragment at all. -/
def extractionAligned (e : Event) : Prop :=
  match e.content with
  | none => True
  | some c =>
    match c.parts with
    | [] => True
    | p0 :: _ =>
      (truthyText p0).isSome = true ∨
      (nonemptyTexts c.parts = [] ∧ ∀ p ∈ c.parts, p.function_response = none)

theorem completedPayloads_progress_front (n : List Event) (pl : Payload) :
    completedPayloads
      (n.map (fun _ => TurnResult.progress processingMsg) ++
        [TurnResult.completed pl]) = [pl] := by
  induction n with
  | nil => rfl
  | cons x xs ih =>
    rw [List.map_cons, List.cons_append]
    simp only [completedPayloads, List.filterMap_cons] at ih ⊢
    exact ih

/-- C5 amended: the blocking result equals the drained streaming Completed
payload on event sequences ending in a single final event whose shape is
extraction-aligned (first part carries non-empty text, or the event has no
non-empty text and no function-response fragments, or no content/parts);
the counterexample forces the alignment restriction, since the streaming
path inspects only the first part while the blocking path joins all parts. -/
theorem c5_invoke_refines_stream (es : List Event) (e : Event)
    (hes : ∀ x ∈ es, x.isFinalResponse = false)
    (hf : e.isFinalResponse = true)
    (ha : extractionAligned e) :
    ∃ rs, stream (es ++ [e]) = some rs ∧
      completedPayloads rs = [Payload.text (invokeExtract (es ++ [e]))] := by
  have hlast : (es ++ [e]).getLast? = some e := by
    simp [List.getLast?_concat]
  have hext : invokeExtract (es ++ [e]) =
      String.intercalate "\n" (nonemptyTexts (partsOf e)) :=
    (c6_invoke_joins_final_texts (es ++ [e])).2 e hlast
  have hpl : finalPayload e = some (Payload.text (invokeExtract (es ++ [e]))) := by
    rw [hext]
    cases hc : e.content with
    | none => simp [finalPayload, partsOf, hc]; rfl
    | some c =>
      cases hp : c.parts with
      | nil => simp [finalPayload, partsOf, hc, hp]; rfl
      | cons p0 rest =>
        simp only [extractionAligned, hc, hp] at ha
        rcases ha with ht | ⟨hnt, hfr⟩
        · simp [finalPayload, hc, hp, ht, joinTexts_eq, partsOf]
        · have ht0 : (truthyText p0).isSome = false := by
            cases htx : truthyText p0 with
            | none => rfl
            | some t =>
              exfalso
              have hmem : t ∈ nonemptyTexts (p0 :: rest) := by
                rw [← filterMap_truthyText_eq]
                exact List.mem_filterMap.mpr ⟨p0, by simp, htx⟩
              simp [hnt] at hmem
          have hany : ((p0 :: rest).any
              (fun p => p.function_response.isSome)) = false := by
            rw [List.any_eq_false]
            intro p hpmem
            simp [hfr p hpmem]
          simp [finalPayload, hc, hp, ht0, hany, partsOf, hnt]
          rfl
  refine ⟨es.map (fun _ => TurnResult.progress processingMsg) ++
      [TurnResult.completed (Payload.text (invokeExtract (es ++ [e])))],
    ?_, completedPayloads_progress_front es _⟩
  rw [stream_progress_front es [e] hes]
  simp [stream, streamStep, hf, hpl]

theorem c5_witness :
    ∃ rs, stream [finalTextEvent] = some rs ∧
      completedPayloads rs =
        [Payload.text (invokeExtract [finalTextEvent])] := by
  have h := c5_invoke_refines_stream [] finalTextEvent (by simp) rfl
    (Or.inl rfl)
  simpa using h

/-! ## Lifecycle loader fixtures and claims C3, C4 -/

def dOk1 : Descriptor :=
  { name := "s1", command := "cmd1", args := [], env := [],
    outcome := .ok [⟨"t1"⟩] ⟨1⟩ }

def dBad2 : Descriptor :=
  { name := "s2", command := "cmd2", args := [], env := [],
    outcome := .connectFail "handshake rejected" }

def dOk3 : Descriptor :=
  { name := "s3", command := "cmd3", args := [], env := [],
    outcome := .ok [⟨"t3"⟩] ⟨3⟩ }

/-- C3 counterexample: with a successful first descriptor and a failing
second, the loader returns no release handle at all - the error propagates -
and the first provider's successfully opened connection is left unreleased,
i.e. leaked. -/
theorem c3_counterexample :
    get_tools_async [dOk1, dBad2] =
      Except.error ("handshake rejected", [⟨1⟩]) ∧
    (∀ r : LoaderOk, get_tools_async [dOk1, dBad2] ≠ Except.ok r) ∧
    ([(⟨1⟩ : Conn)] : List Conn) ≠ [] := by
  refine ⟨rfl, ?_, by decide⟩
  intro r h
  rw [show get_tools_async [dOk1, dBad2] =
    Except.error ("handshake rejected", [⟨1⟩]) from rfl] at h
  simp at h

/-- C3 amended: when every descriptor in the batch connects, the loader
returns a single handle whose release closes each opened connection exactly
once in reverse acquisition order, and releasing with zero connections is a
no-op; but when a descriptor fails to connect, the loader propagates the
error without returning a handle, and the connections opened before the
failure are leaked rather than released. -/
theorem c3_release_contract (ds pre post : List Descriptor)
    (d : Descriptor) (err : String)
    (hok : ∀ x ∈ ds, descOk x = true)
    (hpre : ∀ x ∈ pre, descOk x = true)
    (hd : d.outcome = ConnOutcome.connectFail err) :
    (get_tools_async ds = Except.ok (toolsOf ds, connsOf ds) ∧
      releaseStack (connsOf ds) = (connsOf ds).reverse ∧
      (∀ c : Conn, (releaseStack (connsOf ds)).count c = (connsOf ds).count c) ∧
      releaseStack ([] : List Conn) = []) ∧
    get_tools_async (pre ++ d :: post) = Except.error (err, connsOf pre) := by
  constructor
  · refine ⟨?_, rfl, ?_, rfl⟩
    · have h := get_tools_loop_ok_front ds hok [] [] []
      rw [List.append_nil] at h
      simpa [get_tools_async, get_tools_loop] using h
    · intro c
      simp [releaseStack, List.count_reverse]
  · have h := get_tools_loop_ok_front pre hpre (d :: post) [] []
    simp only [get_tools_async, h, get_tools_loop, hd, List.nil_append]

theorem c3_witness :
    get_tools_async [dOk1, dOk3] =
      Except.ok ([⟨"t1"⟩, ⟨"t3"⟩], [⟨1⟩, ⟨3⟩]) ∧
    releaseStack [⟨1⟩, ⟨3⟩] = [(⟨3⟩ : Conn), ⟨1⟩] ∧
    get_tools_async [dOk1, dBad2, dOk3] =
      Except.error ("handshake rejected", [⟨1⟩]) := by
  have h := c3_release_contract [dOk1, dOk3] [dOk1] [dOk3] dBad2
    "handshake rejected" (by decide) (by decide) rfl
  exact ⟨h.1.1, h.1.2.1, h.2⟩

/-- C4 counterexample: with 3 descriptors whose 2nd fails to connect, the
loader does not produce a registry holding the 1st and 3rd providers' tool
handles - it aborts with the propagated error, so no registry exists at
all. -/
theorem c4_counterexample :
    get_tools_async [dOk1, dBad2, dOk3] =
      Except.error ("handshake rejected", [⟨1⟩]) ∧
    ¬ ∃ r : LoaderOk, get_tools_async [dOk1, dBad2, dOk3] = Except.ok r ∧
        r.1 = [⟨"t1"⟩, ⟨"t3"⟩] := by
  refine ⟨rfl, ?_⟩
  rintro ⟨r, h, -⟩
  rw [show get_tools_async [dOk1, dBad2, dOk3] =
    Except.error ("handshake rejected", [⟨1⟩]) from rfl] at h
  simp at h

/-- C4 amended: a descriptor whose connection setup fails aborts the batch:
with every earlier descriptor successful, the loader propagates that
descriptor's error, the sibling descriptors after the failure are never
attempted (the outcome is independent of them), and no registry is
produced. -/
theorem c4_failure_aborts_batch (pre post post' : List Descriptor)
    (d : Descriptor) (err : String)
    (hpre : ∀ x ∈ pre, descOk x = true)
    (hd : d.outcome = ConnOutcome.connectFail err) :
    get_tools_async (pre ++ d :: post) = Except.error (err, connsOf pre) ∧
    get_tools_async (pre ++ d :: post) =
      get_tools_async (pre ++ d :: post') ∧
    ∀ r : LoaderOk, get_tools_async (pre ++ d :: post) ≠ Except.ok r := by
  have habort : ∀ q : List Descriptor,
      get_tools_async (pre ++ d :: q) = Except.error (err, connsOf pre) := by
    intro q
    have h := get_tools_loop_ok_front pre hpre (d :: q) [] []
    simp only [get_tools_async, h, get_tools_loop, hd, List.nil_append]
  refine ⟨habort post, (habort post).trans (habort post').symm, ?_⟩
  intro r h
  rw [habort post] at h
  simp at h

theorem c4_witness :
    get_tools_async [dOk1, dBad2, dOk3] =
      Except.error ("handshake rejected", connsOf [dOk1]) ∧
    get_tools_async [dOk1, dBad2, dOk3] =
      get_tools_async [dOk1, dBad2] := by
  have h := c4_failure_aborts_batch [dOk1] [dOk3] [] dBad2
    "handshake rejected" (by decide) rfl
  exact ⟨h.1, h.2.1⟩

end A2AMCP
